import Mathlib

/-!
Verification of the `ntpsync` Go package (github.com/hy-iot/ntpsync).

This file shallowly embeds the computational core of the package and proves
(or refutes) the specification claims about it.  The embedding conventions:

* A `time.Time` instant is an unbounded integer count of nanoseconds
  (Go stores wall-clock seconds as an `int64` plus a nanosecond field in
  `[0, 10^9)`; for functions that consume an instant split that way we use a
  `(sec : Int) × (nsec : Nat)` pair, matching `t.Unix()` and `t.Nanosecond()`).
* A `time.Duration` is an `int64` of nanoseconds.  Arithmetic on it wraps
  modulo 2^64 in two's complement (`wrap64`), `time.Time.Sub` saturates at the
  `int64` bounds exactly as documented for Go's `Sub`, and Go's integer
  division truncates toward zero (`Int.tdiv`).
* `uint32` conversions are taken modulo 2^32 (`toUInt32` / Nat `% 2^32`);
  truncating a two's-complement `int64` to 32 bits is the same as the
  euclidean remainder of the unbounded value modulo 2^32.
* Network I/O is factored out: the pure tail of `syncWithServerBinary`
  (everything after the response bytes and the four timestamps are in hand)
  is embedded as `syncWithServerBinaryCore`, and the multi-server strategies
  take the per-server exchange outcomes as a function/list argument.
-/

namespace Ntpsync


/-! ## Go int64 duration arithmetic (`time.Duration`) -/

/-- Lower bound of Go's `int64` (`math.MinInt64`, the minimum `time.Duration`). -/
def int64Min : Int := -9223372036854775808


/-- Upper bound of Go's `int64` (`math.MaxInt64`, the maximum `time.Duration`). -/
def int64Max : Int := 9223372036854775807


/-- `x` is representable as a Go `int64`. -/
def InInt64 (x : Int) : Prop := int64Min ≤ x ∧ x ≤ int64Max


instance (x : Int) : Decidable (InInt64 x) := by unfold InInt64; infer_instance


/-- Reduce an unbounded integer to the `int64` two's-complement value with the
same low 64 bits: the effect of Go's wrapping arithmetic on overflow. -/
def wrap64 (x : Int) : Int :=
  (x + 9223372036854775808) % 18446744073709551616 - 9223372036854775808


/-- Go `time.Time.Sub`: the exact difference when it fits in a `time.Duration`,
otherwise saturated to the minimum/maximum duration (per Go's documentation
of `Sub`). Instants `t`, `u` are nanosecond counts. -/
def timeSub (t u : Int) : Int :=
  if t - u < int64Min then int64Min
  else if int64Max < t - u then int64Max
  else t - u


/-- Go `+` on `time.Duration`: `int64` addition, wrapping on overflow. -/
def durAdd (a b : Int) : Int := wrap64 (a + b)


/-- Go `-` on `time.Duration`: `int64` subtraction, wrapping on overflow. -/
def durSub (a b : Int) : Int := wrap64 (a - b)


/-- Go `/ 2` on `time.Duration`: `int64` division truncating toward zero
(no wrap is possible when dividing by 2). -/
def durHalf (a : Int) : Int := Int.tdiv a 2


/-! ## Offset and RTT computation

`syncWithServerBinary` (src/pkg/ntpsync/ntp_binary.go lines 112–116) and
`syncWithServer` (src/pkg/ntpsync/sync.go lines 55–59) compute, on
`time.Duration` arithmetic:

    offset := ((t2.Sub(t1) + t3.Sub(t4)) / 2)
    rtt := (t4.Sub(t1) - (t3.Sub(t2)))
-/

/-- The offset computed by one exchange from the four timestamps. -/
def offsetCalc (t1 t2 t3 t4 : Int) : Int :=
  durHalf (durAdd (timeSub t2 t1) (timeSub t3 t4))


/-- The round-trip time computed by one exchange from the four timestamps. -/
def rttCalc (t1 t2 t3 t4 : Int) : Int :=
  durSub (timeSub t4 t1) (timeSub t3 t2)


/-! ## Errors and results -/

/-- Failure kinds of a single exchange with one server (the distinct `error`
values produced in `syncWithServerBinary` / `syncWithServer`). -/
inductive ExchangeError where
  | connectFailed
  | sendFailed
  | readFailed
  | malformedResponse
  | invalidStratum
  | negativeRTT
deriving DecidableEq


/-- Failure kinds of client-level operations. `allServersFailed` wraps the
last per-server failure (`fmt.Errorf("无法与任何NTP服务器同步: %v", lastErr)`);
the wrapped value is `none` in the (unreachable for a non-empty server list)
case where no individual error was recorded. -/
inductive SyncError where
  | noServersConfigured
  | allServersFailed (last : Option ExchangeError)
  | alreadyRunning
  | unknownServer
  | duplicateServer
deriving DecidableEq


/-- `SyncResult` (src/unnamed/part_002): outcome of one successful exchange.
`time` is an instant in nanoseconds, `offset` and `rtt` are durations,
`stratum` is the response's stratum byte. -/
structure SyncResult where
  server : String
  time : Int
  offset : Int
  rtt : Int
  stratum : Nat
deriving DecidableEq


/-- The pure tail of `syncWithServerBinary` (src/pkg/ntpsync/ntp_binary.go
lines 96–134), applied once the response has been read: `t1`/`t4` are the
local send/receive instants, `stratum` is `respBytes[1]`, `t2`/`t3` are the
decoded server receive/transmit instants, `now` is the instant read for the
result's `Time` field.  `syncWithServer` (sync.go lines 46–75) performs the
identical computation. -/
def syncWithServerBinaryCore (server : String) (t1 t4 : Int) (stratum : Nat)
    (t2 t3 : Int) (now : Int) : Except ExchangeError SyncResult :=
  if stratum = 0 then
    .error .invalidStratum
  else
    let offset := offsetCalc t1 t2 t3 t4
    let rtt := rttCalc t1 t2 t3 t4
    if rtt < 0 then
      .error .negativeRTT
    else
      .ok { server := server, time := now + offset, offset := offset,
            rtt := rtt, stratum := stratum }


/-! ## Timestamp conversion (src/pkg/ntpsync/time_utils.go) -/

/-- Seconds between the NTP epoch (1900-01-01) and the Unix epoch
(1970-01-01): the `ntpEpoch` constant of time_utils.go. -/
def ntpEpoch : Nat := 2208988800


/-- Go's conversion of an `int64` value to `uint32`: keep the low 32 bits.
On the unbounded embedding this is the euclidean remainder modulo 2^32
(wrapping the `int64` first changes the value by a multiple of 2^64, which
does not affect the residue modulo 2^32). -/
def toUInt32 (x : Int) : Nat := (x % 4294967296).toNat


/-- `timeToNTPTime` (time_utils.go lines 11–15): an instant, split as
`t.Unix()` seconds and `t.Nanosecond()` (always in `[0, 10^9)`), to a
protocol `(seconds, fraction)` pair of `uint32`s:

    seconds := uint32(t.Unix() + ntpEpoch)
    fraction := uint32(t.Nanosecond() * 0x100000000 / 1000000000)
-/
def timeToNTPTime (sec : Int) (nsec : Nat) : Nat × Nat :=
  (toUInt32 (sec + 2208988800), nsec * 4294967296 / 1000000000 % 4294967296)


/-- `ntpTimeToTime` (time_utils.go lines 18–22): a protocol pair of `uint32`s
back to an instant:

    secs := int64(seconds - ntpEpoch)   // uint32 subtraction, then zero-extend
    nanos := int64(fraction) * 1000000000 / 0x100000000
    return time.Unix(secs, nanos)

The `uint32` subtraction wraps modulo 2^32; the zero-extension to `int64`
makes the resulting Unix seconds the nonnegative wrapped value.  For
`fraction < 2^32` the nanosecond part lies in `[0, 10^9)`, so `time.Unix`
performs no renormalisation. -/
def ntpTimeToTime (seconds fraction : Nat) : Int × Nat :=
  (((seconds % 4294967296 + 4294967296 - ntpEpoch) % 4294967296 : Nat),
   fraction % 4294967296 * 1000000000 / 4294967296)


/-- The round trip of C3: instant → protocol pair → instant. -/
def ntpRoundTrip (sec : Int) (nsec : Nat) : Int × Nat :=
  ntpTimeToTime (timeToNTPTime sec nsec).1 (timeToNTPTime sec nsec).2


/-! ## Periodic scheduler (src/unnamed/part_004, `StartPeriodicSync` etc.)

The scheduler's lock-protected control state is embedded as the fields the
control flow inspects: whether `stopChan` is currently closed, the `AutoSync`
flag, and how many background loop goroutines have been launched and not yet
joined (`syncWaitGroup`'s effective count). -/

/-- Scheduler control state of an `NTPSync` client. -/
structure SchedulerState where
  stopChanClosed : Bool
  autoSync : Bool
  activeLoops : Nat
deriving DecidableEq


/-- The scheduler state of a freshly constructed client: `New` (ntpsync.go
lines 99–124) creates an open `stopChan`, copies `opts.AutoSync` (here
disabled), and launches no loop. -/
def freshScheduler : SchedulerState :=
  { stopChanClosed := false, autoSync := false, activeLoops := 0 }


/-- `IsPeriodicSyncRunning` (part_004): `false` if `stopChan` is closed,
otherwise the `AutoSync` flag. -/
def isPeriodicSyncRunning (s : SchedulerState) : Bool :=
  if s.stopChanClosed then false else s.autoSync


/-- `StartPeriodicSync` (src/unnamed/part_004 lines 291–327): under the lock,
a `select` on `stopChan` with a `default` branch: if the channel is closed it
is recreated (open again), an asynchronous initial sync is fired, one loop
goroutine is launched and `AutoSync` is set; if the channel is open the call
returns the `已经在运行` (already running) error and changes nothing. -/
def startPeriodicSync (s : SchedulerState) :
    SchedulerState × Except SyncError Unit :=
  if s.stopChanClosed then
    ({ stopChanClosed := false, autoSync := true,
       activeLoops := s.activeLoops + 1 }, .ok ())
  else
    (s, .error .alreadyRunning)


/-- `StopPeriodicSync` (part_004): if `stopChan` is already closed, return;
otherwise close it, clear `AutoSync`, and join every launched loop. -/
def stopPeriodicSync (s : SchedulerState) : SchedulerState :=
  if s.stopChanClosed then s
  else { stopChanClosed := true, autoSync := false, activeLoops := 0 }


/-- `New` (ntpsync.go lines 99–124) restricted to its scheduler effect:
build the fresh state with the requested `AutoSync` flag and, when the flag
is set, call `StartPeriodicSync`, failing construction if it fails. -/
def newScheduler (auto : Bool) : Except SyncError SchedulerState :=
  let base : SchedulerState :=
    { stopChanClosed := false, autoSync := auto, activeLoops := 0 }
  if auto then
    match startPeriodicSync base with
    | (s, .ok ()) => .ok s
    | (_, .error e) => .error e
  else
    .ok base


/-! ## `NTPSync.AddServer` (src/pkg/ntpsync/ntp_api.go lines 44–56) -/

/-- The client-level server list after `AddServer`: the method scans the
list and returns without change when the address is already present,
otherwise appends it. -/
def AddServer (servers : List String) (server : String) : List String :=
  if server ∈ servers then servers else servers ++ [server]


/-! ## Shared sync state and the sequential failover strategy
(src/pkg/ntpsync/multi_server.go) -/

/-- The client fields written by a successful sync attempt under the
exclusive lock: `TimeOffset` (a duration) and `LastSync` (an instant). -/
structure SyncState where
  timeOffset : Int
  lastSync : Int
deriving DecidableEq


/-- The lock-protected write on success in `SyncWithMultiServer` /
`SyncWithMultiServerParallel` (multi_server.go lines 32–35 and 107–110):
`n.TimeOffset = result.Offset; n.LastSync = time.Now()`. -/
def adoptResult (r : SyncResult) (now : Int) : SyncState :=
  { timeOffset := r.offset, lastSync := now }


/-- The server loop of `SyncWithMultiServer` (multi_server.go lines 24–42).
`outcome` gives each server's exchange result (`syncWithServerBinary`
factored over the network), `lastErr` is the remembered last failure, and
the third component instruments which servers have been contacted, in
order.  On the first success the shared state is replaced by the result's
offset and the current instant and the loop returns without touching later
servers; when the list is exhausted every server failed and the last error
is wrapped. -/
def syncSeqLoop (outcome : String → Except ExchangeError SyncResult)
    (now : Int) : List String → SyncState → Option ExchangeError →
    List String → SyncState × Except SyncError Unit × List String
  | [], st, lastErr, contacted =>
    (st, .error (.allServersFailed lastErr), contacted)
  | s :: rest, st, _lastErr, contacted =>
    match outcome s with
    | .error e => syncSeqLoop outcome now rest st (some e) (contacted ++ [s])
    | .ok r => (adoptResult r now, .ok (), contacted ++ [s])


/-- `SyncWithMultiServer` (multi_server.go lines 12–43): error out on an
empty server list, otherwise run the sequential loop over a snapshot of the
list.  (`SyncWithBinary`, ntp_binary.go lines 13–43, is the same loop.) -/
def syncWithMultiServer (outcome : String → Except ExchangeError SyncResult)
    (servers : List String) (st : SyncState) (now : Int) :
    SyncState × Except SyncError Unit × List String :=
  if servers.isEmpty then (st, .error .noServersConfigured, [])
  else syncSeqLoop outcome now servers st none []


/-! ## Parallel race strategy (`SyncWithMultiServerParallel`,
src/pkg/ntpsync/multi_server.go lines 46–116)

The goroutines write each server's outcome to a result or error channel and
the collector drains both only after every attempt has completed (the
channels are closed after `wg.Wait()`).  The embedding therefore takes the
complete lists of successful results and of errors, each in channel-arrival
order — an arbitrary interleaving-dependent permutation of the outcomes;
the theorems hold for every order. -/

/-- The collector's preference test (multi_server.go line 92):
`r.Stratum < result.Stratum || (r.Stratum == result.Stratum && r.RTT < result.RTT)`. -/
def better (r b : SyncResult) : Bool :=
  decide (r.stratum < b.stratum) ||
    (decide (r.stratum = b.stratum) && decide (r.rtt < b.rtt))


/-- The collector loop over the drained result channel (multi_server.go
lines 91–95): keep the first result, then replace it whenever a later one
is `better`. -/
def pickBest : Option SyncResult → List SyncResult → Option SyncResult
  | acc, [] => acc
  | none, r :: rest => pickBest (some r) rest
  | some b, r :: rest => pickBest (some (if better r b then r else b)) rest


/-- `SyncWithMultiServerParallel` after all attempts completed: adopt the
collector's winner, or — with no successful result — wrap the last drained
error. -/
def syncWithMultiServerParallel (results : List SyncResult)
    (errs : List ExchangeError) (st : SyncState) (now : Int) :
    SyncState × Except SyncError Unit :=
  match pickBest none results with
  | some w => (adoptResult w now, .ok ())
  | none => (st, .error (.allServersFailed errs.getLast?))


/-- A stratum-2 success with a fast 10 ms round trip (for the C9 witness). -/
def resultFast : SyncResult :=
  { server := "fast", time := 0, offset := 5, rtt := 10000000, stratum := 2 }


/-- A stratum-1 success with a slow 90 ms round trip (for the C9 witness). -/
def resultLow : SyncResult :=
  { server := "low", time := 0, offset := 9, rtt := 90000000, stratum := 1 }


/-! ## ServerManager ranking (src/unnamed/part_003) -/

/-- `ServerStatus` (src/unnamed/part_002): per-server health record.
`lastResponse` is an instant, `rtt` and `offset` durations, `stratum` the
stratum byte. -/
structure ServerStatus where
  address : String
  reachable : Bool
  lastResponse : Int
  rtt : Int
  stratum : Nat
  offset : Int
deriving DecidableEq


/-- The comparator of `reorderServers` (part_003 lines 168–183):

    if si.Reachable != sj.Reachable { return si.Reachable }
    if si.Stratum != sj.Stratum { return si.Stratum < sj.Stratum }
    return si.RTT < sj.RTT
-/
def statusLess (si sj : ServerStatus) : Bool :=
  if si.reachable ≠ sj.reachable then si.reachable
  else if si.stratum ≠ sj.stratum then decide (si.stratum < sj.stratum)
  else decide (si.rtt < sj.rtt)


/-- `sort.SliceStable` over the slice of map entries: a stable sort placing
`a` no later than `b` whenever `b` is not strictly less than `a`.  The Go
slice being sorted is built by ranging over the `servers` map, so the input
order here is the map's enumeration order, which Go leaves unspecified — it
is NOT the manager's previous `serverOrder` ranking. -/
def sortServers (l : List (String × ServerStatus)) :
    List (String × ServerStatus) :=
  l.mergeSort (fun a b => ! statusLess b.2 a.2)


/-- `reorderServers` (part_003 lines 160–188): the new `serverOrder` is the
stably sorted address list. -/
def reorderServers (l : List (String × ServerStatus)) : List String :=
  (sortServers l).map Prod.fst


/-- `ServerManager` state: the `servers` map (as an association list in
insertion order) and the ranked `serverOrder`. -/
structure ServerManager where
  servers : List (String × ServerStatus)
  serverOrder : List String
deriving DecidableEq


/-- `UpdateServerStatus` (part_003 lines 137–153): error for an unknown
address, otherwise replace the status and re-rank.  `enum` is the order in
which Go's `range` over the updated map happens to yield the entries; any
permutation of the map's entries is a possible enumeration. -/
def updateServerStatus (sm : ServerManager) (server : String)
    (status : ServerStatus) (enum : List (String × ServerStatus)) :
    Except SyncError ServerManager :=
  if sm.servers.any (fun p => p.1 == server) then
    .ok { servers := sm.servers.map
            (fun p => if p.1 = server then (server, status) else p),
          serverOrder := reorderServers enum }
  else
    .error .unknownServer


/-- Rendering of the reachable flag as a sort key (reachable first). -/
def reachRank (b : Bool) : Nat := if b then 0 else 1


/-! ## C5: re-ranking sorts, but ties follow the map enumeration -/

/-- The tied status used in the C5 scenario: reachable, stratum 2,
RTT 50 ms. -/
def statusTie (addr : String) : ServerStatus :=
  { address := addr, reachable := true, lastResponse := 0, rtt := 50000000,
    stratum := 2, offset := 0 }


/-- Server "a"'s status before the C5 update: same key metrics except a
worse stratum, so the prior ranking put "b" first. -/
def statusOldA : ServerStatus :=
  { address := "a", reachable := true, lastResponse := 0, rtt := 50000000,
    stratum := 3, offset := 0 }


/-- The manager before the C5 update: both servers known, prior ranking
`["b", "a"]` (consistent with "a"'s old, worse stratum). -/
def smPrior : ServerManager :=
  { servers := [("a", statusOldA), ("b", statusTie "b")],
    serverOrder := ["b", "a"] }


theorem wrap64_eq_self (x : Int) (h1 : int64Min ≤ x) (h2 : x ≤ int64Max) :
    wrap64 x = x := by
  rw [int64Min] at h1
  rw [int64Max] at h2
  have h : (x + 9223372036854775808) % 18446744073709551616
      = x + 9223372036854775808 :=
    Int.emod_eq_of_lt (by omega) (by omega)
  unfold wrap64
  rw [h]
  omega


/-! ## C1: offset and RTT formulas -/

/-- C1: for a completed exchange whose timestamp differences (and their
sum/difference) are representable as `int64` durations — true of every real
exchange, where all four instants lie in the era `ntpTimeToTime` can produce —
the computed offset is exactly `((T2−T1)+(T3−T4))/2` (Go division truncating
toward zero) and the computed RTT is exactly `(T4−T1)−(T3−T2)`. -/
theorem offsetCalc_rttCalc_exact (t1 t2 t3 t4 : Int)
    (h21 : InInt64 (t2 - t1)) (h34 : InInt64 (t3 - t4))
    (h41 : InInt64 (t4 - t1)) (h32 : InInt64 (t3 - t2))
    (hsum : InInt64 ((t2 - t1) + (t3 - t4)))
    (hdiff : InInt64 ((t4 - t1) - (t3 - t2))) :
    offsetCalc t1 t2 t3 t4 = Int.tdiv ((t2 - t1) + (t3 - t4)) 2 ∧
    rttCalc t1 t2 t3 t4 = (t4 - t1) - (t3 - t2) := by
  obtain ⟨h21a, h21b⟩ := h21
  obtain ⟨h34a, h34b⟩ := h34
  obtain ⟨h41a, h41b⟩ := h41
  obtain ⟨h32a, h32b⟩ := h32
  have e21 : timeSub t2 t1 = t2 - t1 := by
    unfold timeSub; rw [if_neg (by omega), if_neg (by omega)]
  have e34 : timeSub t3 t4 = t3 - t4 := by
    unfold timeSub; rw [if_neg (by omega), if_neg (by omega)]
  have e41 : timeSub t4 t1 = t4 - t1 := by
    unfold timeSub; rw [if_neg (by omega), if_neg (by omega)]
  have e32 : timeSub t3 t2 = t3 - t2 := by
    unfold timeSub; rw [if_neg (by omega), if_neg (by omega)]
  constructor
  · unfold offsetCalc durAdd durHalf
    rw [e21, e34, wrap64_eq_self _ hsum.1 hsum.2]
  · unfold rttCalc durSub
    rw [e41, e32, wrap64_eq_self _ hdiff.1 hdiff.2]


/-- Witness for C1 at a concrete exchange: T1 = 0, T2 = 10, T3 = 20, T4 = 30
(nanoseconds), giving offset 0 and RTT 20. -/
theorem offsetCalc_rttCalc_exact_witness :
    offsetCalc 0 10 20 30 = Int.tdiv ((10 - 0) + (20 - 30)) 2 ∧
    rttCalc 0 10 20 30 = (30 - 0) - (20 - 10) :=
  offsetCalc_rttCalc_exact 0 10 20 30 (by decide) (by decide) (by decide)
    (by decide) (by decide) (by decide)


/-! ## C2: stratum validation -/

/-- C2 counterexample: the code only rejects stratum 0
(`if stratum == 0 { return nil, ... }`, ntp_binary.go lines 97–100); a
response with stratum 16 — outside the claimed acceptance interval [1,15] —
is accepted as a success. -/
theorem stratum16_accepted :
    (syncWithServerBinaryCore "s" 0 0 16 0 0 0).isOk = true ∧
    ¬ (1 ≤ 16 ∧ 16 ≤ 15) := by decide


/-- C2 amended: a sync result is accepted only if its stratum is nonzero;
stratum 0 is rejected as invalid, and every nonzero stratum byte (including
values above 15) is accepted whenever the computed RTT is nonnegative. -/
theorem stratum_accepted_iff_ne_zero (server : String) (t1 t4 : Int)
    (stratum : Nat) (t2 t3 now : Int) :
    ((syncWithServerBinaryCore server t1 t4 stratum t2 t3 now).isOk = true →
      stratum ≠ 0) ∧
    (stratum = 0 →
      syncWithServerBinaryCore server t1 t4 stratum t2 t3 now
        = .error .invalidStratum) ∧
    (stratum ≠ 0 → 0 ≤ rttCalc t1 t2 t3 t4 →
      (syncWithServerBinaryCore server t1 t4 stratum t2 t3 now).isOk = true) := by
  refine ⟨?_, ?_, ?_⟩
  · intro hok hz
    simp [syncWithServerBinaryCore, hz, Except.isOk, Except.toBool] at hok
  · intro hz
    simp [syncWithServerBinaryCore, hz]
  · intro hz hrtt
    simp [syncWithServerBinaryCore, hz, not_lt.mpr hrtt, Except.isOk,
      Except.toBool]


/-- Witness for C2's amended statement: a stratum-2 response with RTT 0 is
accepted, and a stratum-0 response is rejected as `invalidStratum`. -/
theorem stratum_accepted_iff_ne_zero_witness :
    (syncWithServerBinaryCore "s" 0 0 2 0 0 0).isOk = true ∧
    syncWithServerBinaryCore "s" 0 0 0 0 0 0 = .error .invalidStratum :=
  ⟨(stratum_accepted_iff_ne_zero "s" 0 0 2 0 0 0).2.2 (by decide) (by decide),
   (stratum_accepted_iff_ne_zero "s" 0 0 0 0 0 0).2.1 rfl⟩


/-! ## C3: round-trip accuracy -/

/-- C3 counterexample: the instant 1 ns after the Unix epoch round-trips to
the epoch itself (both conversions truncate), an error of 1 ns.  One
nanosecond is not strictly less than 2^-32 s (an error `e` ns is below
2^-32 s iff `e * 2^32 < 10^9`, and `1 * 2^32 = 4294967296 ≥ 10^9`), so the
round trip does not reproduce every instant within 2^-32 s. -/
theorem ntpRoundTrip_one_ns_error :
    ntpRoundTrip 0 1 = (0, 0) ∧
    ¬ ((1 - (ntpRoundTrip 0 1).2) * 4294967296 < 1000000000) := by decide


/-- C3 amended: for instants in the protocol's unambiguous era — Unix seconds
in `[0, 2^32 − 2208988800)`, i.e. 1970-01-01 through 2036-02-07 — the round
trip reproduces the seconds exactly and the nanoseconds within 1 ns (the
fraction is truncated twice, so the result never exceeds the original and
falls short by at most one nanosecond).  Outside that era the wrapped
`uint32` seconds make the round trip lose the instant entirely. -/
theorem ntpRoundTrip_error_le_one_ns (sec : Int) (nsec : Nat)
    (h0 : 0 ≤ sec) (h1 : sec + 2208988800 < 4294967296)
    (h2 : nsec < 1000000000) :
    (ntpRoundTrip sec nsec).1 = sec ∧
    (ntpRoundTrip sec nsec).2 ≤ nsec ∧
    nsec ≤ (ntpRoundTrip sec nsec).2 + 1 := by
  have hsec : toUInt32 (sec + 2208988800) = (sec + 2208988800).toNat := by
    unfold toUInt32
    have h : (sec + 2208988800) % 4294967296 = sec + 2208988800 :=
      Int.emod_eq_of_lt (by omega) (by omega)
    rw [h]
  have hfrac : nsec * 4294967296 / 1000000000 % 4294967296
      = nsec * 4294967296 / 1000000000 := by omega
  refine ⟨?_, ?_, ?_⟩
  · show ((toUInt32 (sec + 2208988800) % 4294967296 + 4294967296 - ntpEpoch)
        % 4294967296 : Nat) = sec
    rw [hsec]
    unfold ntpEpoch
    omega
  · show nsec * 4294967296 / 1000000000 % 4294967296 % 4294967296
        * 1000000000 / 4294967296 ≤ nsec
    rw [hfrac, hfrac]
    omega
  · show nsec ≤ nsec * 4294967296 / 1000000000 % 4294967296 % 4294967296
        * 1000000000 / 4294967296 + 1
    rw [hfrac, hfrac]
    omega


/-- Witness for C3's amended statement at the instant 2020-01-01T00:00:00.5Z
(Unix seconds 1577836800, 5·10^8 ns): the round trip returns the instant
exactly. -/
theorem ntpRoundTrip_error_le_one_ns_witness :
    (ntpRoundTrip 1577836800 500000000).1 = 1577836800 ∧
    (ntpRoundTrip 1577836800 500000000).2 ≤ 500000000 ∧
    500000000 ≤ (ntpRoundTrip 1577836800 500000000).2 + 1 :=
  ntpRoundTrip_error_le_one_ns 1577836800 500000000 (by decide) (by decide)
    (by decide)


/-! ## C6: the forward conversion's values -/

/-- C6 counterexample: at Unix seconds 2085978496 (2036-02-07T06:28:16Z) the
sum `unix + 2208988800` is 2^32, and the `uint32` truncation returns protocol
seconds 0, not the claimed `unix + 2208988800`. -/
theorem timeToNTPTime_wraps :
    (timeToNTPTime 2085978496 0).1 ≠ 2085978496 + 2208988800 := by decide


/-- C6 amended: `timeToNTPTime` returns seconds `(unix + 2208988800) mod 2^32`
(the `uint32` truncation of the exact sum — equal to the exact sum precisely
when it is below 2^32) and fraction `nanoseconds · 2^32 / 10^9` truncated; in
particular 2020-01-01T00:00:00Z maps to `(3786825600, 0)` and
2020-01-01T00:00:00.5Z maps to fraction 0x80000000. -/
theorem timeToNTPTime_eq (sec : Int) (nsec : Nat) (h : nsec < 1000000000) :
    (timeToNTPTime sec nsec).1 = ((sec + 2208988800).emod 4294967296).toNat ∧
    (timeToNTPTime sec nsec).2 = nsec * 4294967296 / 1000000000 ∧
    timeToNTPTime 1577836800 0 = (3786825600, 0) ∧
    timeToNTPTime 1577836800 500000000 = (3786825600, 2147483648) := by
  refine ⟨rfl, ?_, by decide, by decide⟩
  show nsec * 4294967296 / 1000000000 % 4294967296
      = nsec * 4294967296 / 1000000000
  omega


/-- Witness for C6's amended statement at 2020-01-01T00:00:00.5Z. -/
theorem timeToNTPTime_eq_witness :
    (timeToNTPTime 1577836800 500000000).1
      = ((1577836800 + 2208988800 : Int).emod 4294967296).toNat ∧
    (timeToNTPTime 1577836800 500000000).2
      = 500000000 * 4294967296 / 1000000000 ∧
    timeToNTPTime 1577836800 0 = (3786825600, 0) ∧
    timeToNTPTime 1577836800 500000000 = (3786825600, 2147483648) :=
  timeToNTPTime_eq 1577836800 500000000 (by decide)


/-! ## C4: start() from the initial state -/

/-- C4: the code contradicts the claim. A freshly constructed client is
Stopped (`isPeriodicSyncRunning` is `false`), yet `StartPeriodicSync` reads
the still-open `stopChan` as "already running": it returns the AlreadyRunning
error, leaves the state unchanged and launches no loop. Start succeeds only
after a prior `StopPeriodicSync` has closed the channel (the workaround used
by `TestPeriodicSync`), and constructing with `AutoSync` enabled can never
succeed. -/
theorem startPeriodicSync_fresh_fails :
    isPeriodicSyncRunning freshScheduler = false ∧
    startPeriodicSync freshScheduler = (freshScheduler, .error .alreadyRunning) ∧
    (startPeriodicSync freshScheduler).1.activeLoops = 0 ∧
    startPeriodicSync (stopPeriodicSync freshScheduler) =
      ({ stopChanClosed := false, autoSync := true, activeLoops := 1 },
       .ok ()) ∧
    newScheduler true = .error .alreadyRunning :=
  ⟨rfl, rfl, rfl, rfl, rfl⟩


/-! ## C10: AddServer deduplication -/

/-- C10: adding an address already in the client's server list leaves the
list unchanged (and reports nothing — the method has no error result);
adding a new address appends it at the end; hence `AddServer` preserves
freedom from duplicates. -/
theorem AddServer_dedup (l : List String) (s : String) :
    (s ∈ l → AddServer l s = l) ∧
    (s ∉ l → AddServer l s = l ++ [s]) ∧
    (l.Nodup → (AddServer l s).Nodup) := by
  refine ⟨fun h => by simp [AddServer, h], fun h => by simp [AddServer, h],
    fun h => ?_⟩
  by_cases hmem : s ∈ l
  · simpa [AddServer, hmem] using h
  · simp [AddServer, hmem, List.nodup_append, h]


/-- Witness for C10: re-adding "a" leaves `["a"]` unchanged; adding "b"
appends it and the result has no duplicates. -/
theorem AddServer_dedup_witness :
    AddServer ["a"] "a" = ["a"] ∧
    AddServer ["a"] "b" = ["a", "b"] ∧
    (AddServer ["a"] "b").Nodup :=
  ⟨(AddServer_dedup ["a"] "a").1 (by decide),
   (AddServer_dedup ["a"] "b").2.1 (by decide),
   (AddServer_dedup ["a"] "b").2.2 (by decide)⟩


theorem syncSeqLoop_cons_error
    (outcome : String → Except ExchangeError SyncResult) (now : Int)
    (s : String) (rest : List String) (st : SyncState)
    (lastErr : Option ExchangeError) (contacted : List String)
    (e : ExchangeError) (h : outcome s = .error e) :
    syncSeqLoop outcome now (s :: rest) st lastErr contacted
      = syncSeqLoop outcome now rest st (some e) (contacted ++ [s]) := by
  simp only [syncSeqLoop, h]


theorem syncSeqLoop_cons_ok
    (outcome : String → Except ExchangeError SyncResult) (now : Int)
    (s : String) (rest : List String) (st : SyncState)
    (lastErr : Option ExchangeError) (contacted : List String)
    (r : SyncResult) (h : outcome s = .ok r) :
    syncSeqLoop outcome now (s :: rest) st lastErr contacted
      = (adoptResult r now, .ok (), contacted ++ [s]) := by
  simp only [syncSeqLoop, h]


theorem syncSeqLoop_all_fail (outcome : String → Except ExchangeError SyncResult)
    (now : Int) (st : SyncState) :
    ∀ (pre : List String) (s : String) (e : ExchangeError)
      (lastErr : Option ExchangeError) (contacted : List String),
      (∀ x ∈ pre, ∃ e', outcome x = .error e') → outcome s = .error e →
      syncSeqLoop outcome now (pre ++ [s]) st lastErr contacted
        = (st, .error (.allServersFailed (some e)), contacted ++ pre ++ [s]) := by
  intro pre
  induction pre with
  | nil =>
    intro s e lastErr contacted _ hs
    rw [List.nil_append, syncSeqLoop_cons_error outcome now s [] st lastErr
      contacted e hs]
    simp [syncSeqLoop]
  | cons x pre ih =>
    intro s e lastErr contacted hpre hs
    obtain ⟨e', hx⟩ := hpre x (by simp)
    rw [List.cons_append, syncSeqLoop_cons_error outcome now x (pre ++ [s]) st
      lastErr contacted e' hx,
      ih s e (some e') (contacted ++ [x]) (fun y hy => hpre y (by simp [hy]))
        hs]
    simp


theorem syncSeqLoop_first_success
    (outcome : String → Except ExchangeError SyncResult) (now : Int)
    (st : SyncState) :
    ∀ (pre : List String) (s : String) (rest : List String) (r : SyncResult)
      (lastErr : Option ExchangeError) (contacted : List String),
      (∀ x ∈ pre, ∃ e', outcome x = .error e') → outcome s = .ok r →
      syncSeqLoop outcome now (pre ++ s :: rest) st lastErr contacted
        = (adoptResult r now, .ok (), contacted ++ pre ++ [s]) := by
  intro pre
  induction pre with
  | nil =>
    intro s rest r lastErr contacted _ hs
    rw [List.nil_append,
      syncSeqLoop_cons_ok outcome now s rest st lastErr contacted r hs]
    simp
  | cons x pre ih =>
    intro s rest r lastErr contacted hpre hs
    obtain ⟨e', hx⟩ := hpre x (by simp)
    rw [List.cons_append, syncSeqLoop_cons_error outcome now x (pre ++ s :: rest)
      st lastErr contacted e' hx,
      ih s rest r (some e') (contacted ++ [x])
        (fun y hy => hpre y (by simp [hy])) hs]
    simp


/-! ## C8: sequential failover -/

/-- C8: `SyncWithMultiServer` walks the configured list in order.  If every
server before `s` fails and `s` succeeds with result `r`, the call adopts
`r`'s offset and the current instant into shared state, returns success, and
contacts exactly the servers up to and including `s` — never the later ones.
If every server fails, the state is untouched and the single returned error
wraps the last server's own error. -/
theorem syncWithMultiServer_spec
    (outcome : String → Except ExchangeError SyncResult) (now : Int)
    (st : SyncState) :
    (∀ (pre : List String) (s : String) (rest : List String) (r : SyncResult),
      (∀ x ∈ pre, ∃ e', outcome x = .error e') → outcome s = .ok r →
      syncWithMultiServer outcome (pre ++ s :: rest) st now
        = ({ timeOffset := r.offset, lastSync := now }, .ok (), pre ++ [s])) ∧
    (∀ (pre : List String) (s : String) (e : ExchangeError),
      (∀ x ∈ pre, ∃ e', outcome x = .error e') → outcome s = .error e →
      syncWithMultiServer outcome (pre ++ [s]) st now
        = (st, .error (.allServersFailed (some e)), pre ++ [s])) := by
  constructor
  · intro pre s rest r hpre hs
    have hne : (pre ++ s :: rest).isEmpty = false := by
      cases pre <;> simp
    rw [syncWithMultiServer, hne]
    simpa [adoptResult] using
      syncSeqLoop_first_success outcome now st pre s rest r none [] hpre hs
  · intro pre s e hpre hs
    have hne : (pre ++ [s]).isEmpty = false := by
      cases pre <;> simp
    rw [syncWithMultiServer, hne]
    simpa using syncSeqLoop_all_fail outcome now st pre s e none [] hpre hs


/-- Witness for C8: with server "one" failing (connection refused) and
server "two" answering with offset 7 at stratum 2, the failover adopts
offset 7, reports success, and contacts only ["one", "two"], skipping
"three"; with "one" and "two" both failing, the error wraps the last
failure. -/
theorem syncWithMultiServer_spec_witness :
    syncWithMultiServer
        (fun s => if s = "two"
          then .ok { server := "two", time := 107, offset := 7, rtt := 3,
                     stratum := 2 }
          else .error .connectFailed)
        ["one", "two", "three"] { timeOffset := 0, lastSync := 0 } 100
      = ({ timeOffset := 7, lastSync := 100 }, .ok (), ["one", "two"]) ∧
    syncWithMultiServer (fun _ => .error .connectFailed) ["one", "two"]
        { timeOffset := 0, lastSync := 0 } 100
      = ({ timeOffset := 0, lastSync := 0 },
         .error (.allServersFailed (some .connectFailed)), ["one", "two"]) :=
  ⟨(syncWithMultiServer_spec _ 100 { timeOffset := 0, lastSync := 0 }).1
      ["one"] "two" ["three"]
      { server := "two", time := 107, offset := 7, rtt := 3, stratum := 2 }
      (by intro x hx; simp at hx; subst hx; exact ⟨.connectFailed, rfl⟩)
      (by rfl),
   (syncWithMultiServer_spec _ 100 { timeOffset := 0, lastSync := 0 }).2
      ["one"] "two" .connectFailed
      (by intro x hx; exact ⟨.connectFailed, rfl⟩) rfl⟩


/-! ## C7: negative RTT -/

/-- C7: when the computed RTT of an exchange is negative (and the stratum
check did not already fire), the exchange returns the negative-RTT error
rather than a result, and the sequential strategy's loop passes the shared
state through that server's attempt unchanged — the discarded attempt is
never merged into `SyncState`, the loop merely remembers the error and moves
on. -/
theorem negativeRTT_not_merged (server : String) (t1 t2 t3 t4 now : Int)
    (stratum : Nat) (hs : stratum ≠ 0) (hneg : rttCalc t1 t2 t3 t4 < 0) :
    syncWithServerBinaryCore server t1 t4 stratum t2 t3 now
      = .error .negativeRTT ∧
    ∀ (outcome : String → Except ExchangeError SyncResult) (rest : List String)
      (st : SyncState) (nowSeq : Int) (lastErr : Option ExchangeError)
      (contacted : List String),
      outcome server = syncWithServerBinaryCore server t1 t4 stratum t2 t3 now →
      syncSeqLoop outcome nowSeq (server :: rest) st lastErr contacted
        = syncSeqLoop outcome nowSeq rest st (some .negativeRTT)
            (contacted ++ [server]) := by
  have hcore : syncWithServerBinaryCore server t1 t4 stratum t2 t3 now
      = .error .negativeRTT := by
    simp [syncWithServerBinaryCore, hs, hneg]
  refine ⟨hcore, ?_⟩
  intro outcome rest st nowSeq lastErr contacted hout
  simp only [syncSeqLoop, hout, hcore]


/-- Witness for C7: a backward local clock step — T1 = 100 but T4 = 0 with
server timestamps T2 = T3 = 50 — yields RTT −100; the exchange fails with
the negative-RTT error and the loop step leaves the state untouched. -/
theorem negativeRTT_not_merged_witness :
    syncWithServerBinaryCore "s" 100 0 2 50 50 0 = .error .negativeRTT ∧
    syncSeqLoop (fun _ => syncWithServerBinaryCore "s" 100 0 2 50 50 0) 0
        ["s"] { timeOffset := 3, lastSync := 4 } none []
      = syncSeqLoop (fun _ => syncWithServerBinaryCore "s" 100 0 2 50 50 0) 0
          [] { timeOffset := 3, lastSync := 4 } (some .negativeRTT)
          ([] ++ ["s"]) :=
  have h := negativeRTT_not_merged "s" 100 50 50 0 0 2 (by decide) (by decide)
  ⟨h.1, h.2 _ [] { timeOffset := 3, lastSync := 4 } 0 none [] rfl⟩


theorem better_iff (r b : SyncResult) :
    better r b = true ↔
      r.stratum < b.stratum ∨ (r.stratum = b.stratum ∧ r.rtt < b.rtt) := by
  simp [better]


theorem better_eq_false_iff (r b : SyncResult) :
    better r b = false ↔
      ¬ (r.stratum < b.stratum ∨ (r.stratum = b.stratum ∧ r.rtt < b.rtt)) := by
  rw [Bool.eq_false_iff]
  exact not_congr (better_iff r b)


theorem pickBest_min :
    ∀ (l : List SyncResult) (b : SyncResult),
      ∃ w, pickBest (some b) l = some w ∧ w ∈ b :: l ∧
        ∀ r ∈ b :: l, better r w = false := by
  intro l
  induction l with
  | nil =>
    intro b
    refine ⟨b, rfl, by simp, ?_⟩
    intro r hr
    rw [List.mem_singleton] at hr
    subst hr
    rw [better_eq_false_iff]
    omega
  | cons a l ih =>
    intro b
    by_cases hab : better a b = true
    · obtain ⟨w, hw, hmem, hmin⟩ := ih a
      refine ⟨w, ?_, ?_, ?_⟩
      · show pickBest (some (if better a b then a else b)) l = some w
        rw [if_pos hab]
        exact hw
      · rcases (by simpa using hmem : w = a ∨ w ∈ l) with h | h <;> simp [h]
      · intro r hr
        have haw : better a w = false := hmin a (by simp)
        have hbw : better b w = false := by
          rw [better_eq_false_iff]
          rw [better_iff] at hab
          rw [better_eq_false_iff] at haw
          omega
        rcases (by simpa using hr : r = b ∨ r = a ∨ r ∈ l) with rfl | rfl | h
        · exact hbw
        · exact haw
        · exact hmin r (by simp [h])
    · obtain ⟨w, hw, hmem, hmin⟩ := ih b
      refine ⟨w, ?_, ?_, ?_⟩
      · show pickBest (some (if better a b then a else b)) l = some w
        rw [if_neg hab]
        exact hw
      · rcases (by simpa using hmem : w = b ∨ w ∈ l) with h | h <;> simp [h]
      · intro r hr
        have hbw : better b w = false := hmin b (by simp)
        have haw : better a w = false := by
          have hab' : better a b = false := by
            rwa [Bool.eq_false_iff]
          rw [better_eq_false_iff]
          rw [better_eq_false_iff] at hab' hbw
          omega
        rcases (by simpa using hr : r = b ∨ r = a ∨ r ∈ l) with rfl | rfl | h
        · exact hbw
        · exact haw
        · exact hmin r (by simp [h])


/-! ## C9: parallel race winner selection -/

/-- C9: once every per-server attempt has completed, the collector selects
from the successful results a winner that is minimal by stratum, with ties
broken by lower RTT (any result that would beat the winner on that key does
not exist), and only the winner's offset is adopted into the shared state;
with zero successes the call leaves the state unchanged and returns an error
wrapping the last drained failure. -/
theorem syncWithMultiServerParallel_spec (results : List SyncResult)
    (errs : List ExchangeError) (st : SyncState) (now : Int) :
    (results ≠ [] →
      ∃ w, pickBest none results = some w ∧ w ∈ results ∧
        (∀ r ∈ results, w.stratum < r.stratum ∨
          (w.stratum = r.stratum ∧ w.rtt ≤ r.rtt)) ∧
        syncWithMultiServerParallel results errs st now
          = ({ timeOffset := w.offset, lastSync := now }, .ok ())) ∧
    (results = [] → ∀ e, errs.getLast? = some e →
      syncWithMultiServerParallel results errs st now
        = (st, .error (.allServersFailed (some e)))) := by
  constructor
  · intro hne
    match results with
    | [] => exact absurd rfl hne
    | r :: rest =>
      obtain ⟨w, hw, hmem, hmin⟩ := pickBest_min rest r
      have hpick : pickBest none (r :: rest) = some w := by
        show pickBest (some r) rest = some w
        exact hw
      refine ⟨w, hpick, hmem, ?_, ?_⟩
      · intro x hx
        have := hmin x hx
        rw [better_eq_false_iff] at this
        omega
      · unfold syncWithMultiServerParallel
        rw [hpick]
        rfl
  · intro he e hlast
    subst he
    unfold syncWithMultiServerParallel
    show (st, Except.error (SyncError.allServersFailed errs.getLast?))
      = (st, Except.error (SyncError.allServersFailed (some e)))
    rw [hlast]


/-- Witness for C9, the spec's own example: among successes
(stratum 2, RTT 10 ms) and (stratum 1, RTT 90 ms), the stratum-1 result wins
despite its higher RTT; and with no successes the last error is wrapped. -/
theorem syncWithMultiServerParallel_spec_witness :
    (∃ w, pickBest none [resultFast, resultLow] = some w ∧
      w ∈ [resultFast, resultLow] ∧
      (∀ r ∈ [resultFast, resultLow], w.stratum < r.stratum ∨
          (w.stratum = r.stratum ∧ w.rtt ≤ r.rtt)) ∧
      syncWithMultiServerParallel [resultFast, resultLow] []
          { timeOffset := 0, lastSync := 0 } 100
        = ({ timeOffset := w.offset, lastSync := 100 }, .ok ())) ∧
    syncWithMultiServerParallel [] [.connectFailed, .readFailed]
        { timeOffset := 2, lastSync := 3 } 100
      = ({ timeOffset := 2, lastSync := 3 },
         .error (.allServersFailed (some .readFailed))) :=
  ⟨(syncWithMultiServerParallel_spec [resultFast, resultLow] []
      { timeOffset := 0, lastSync := 0 } 100).1 (by simp),
   (syncWithMultiServerParallel_spec [] [.connectFailed, .readFailed]
      { timeOffset := 2, lastSync := 3 } 100).2 rfl .readFailed rfl⟩


theorem statusLess_iff (si sj : ServerStatus) :
    statusLess si sj = true ↔
      (reachRank si.reachable < reachRank sj.reachable ∨
        (reachRank si.reachable = reachRank sj.reachable ∧
          (si.stratum < sj.stratum ∨
            (si.stratum = sj.stratum ∧ si.rtt < sj.rtt)))) := by
  unfold statusLess reachRank
  cases hsi : si.reachable <;> cases hsj : sj.reachable <;>
    simp <;> split_ifs <;> simp_all


theorem statusLess_false_iff (si sj : ServerStatus) :
    statusLess si sj = false ↔
      ¬ (reachRank si.reachable < reachRank sj.reachable ∨
        (reachRank si.reachable = reachRank sj.reachable ∧
          (si.stratum < sj.stratum ∨
            (si.stratum = sj.stratum ∧ si.rtt < sj.rtt)))) := by
  rw [Bool.eq_false_iff]
  exact not_congr (statusLess_iff si sj)


theorem serverLe_trans (a b c : String × ServerStatus)
    (hab : (! statusLess b.2 a.2) = true) (hbc : (! statusLess c.2 b.2) = true) :
    (! statusLess c.2 a.2) = true := by
  rw [Bool.not_eq_true'] at hab hbc ⊢
  rw [statusLess_false_iff] at hab hbc ⊢
  omega


theorem serverLe_total (a b : String × ServerStatus) :
    ((! statusLess b.2 a.2) || (! statusLess a.2 b.2)) = true := by
  rw [Bool.or_eq_true, Bool.not_eq_true', Bool.not_eq_true']
  rw [statusLess_false_iff, statusLess_false_iff]
  omega


/-- C5 counterexample: updating "a" to a status that ties "b" on all three
sort keys triggers a re-rank whose input is the map enumeration — here the
insertion order `[("a", _), ("b", _)]`, a legitimate enumeration of the
updated map — and the tied servers come out as `["a", "b"]`, the reverse of
their prior relative order `["b", "a"]`.  Ties keep the (unspecified) map
enumeration order, not the prior ranking. -/
theorem updateServerStatus_tie_not_prior_order :
    smPrior.serverOrder = ["b", "a"] ∧
    statusLess (statusTie "a") (statusTie "b") = false ∧
    statusLess (statusTie "b") (statusTie "a") = false ∧
    updateServerStatus smPrior "a" (statusTie "a")
        [("a", statusTie "a"), ("b", statusTie "b")]
      = .ok { servers := [("a", statusTie "a"), ("b", statusTie "b")],
              serverOrder := ["a", "b"] } := by
  have hsort : sortServers [("a", statusTie "a"), ("b", statusTie "b")]
      = [("a", statusTie "a"), ("b", statusTie "b")] := by
    have hsub : [("a", statusTie "a"), ("b", statusTie "b")].Sublist
        (sortServers [("a", statusTie "a"), ("b", statusTie "b")]) :=
      List.sublist_mergeSort serverLe_trans serverLe_total
        (by simp [List.pairwise_cons]; decide) (List.Sublist.refl _)
    have hlen : (sortServers [("a", statusTie "a"), ("b", statusTie "b")]).length
        = 2 :=
      (List.mergeSort_perm _ _).length_eq
    exact (hsub.eq_of_length (by rw [hlen]; rfl)).symm
  refine ⟨rfl, by decide, by decide, ?_⟩
  unfold updateServerStatus
  rw [if_pos (by decide)]
  unfold reorderServers
  rw [hsort]
  rfl


/-- C5 amended: for every enumeration `l` of the servers map,
`reorderServers` returns the addresses of a stable sort of `l`: the sorted
list is ordered by (reachable descending, stratum ascending, RTT ascending),
it is a permutation of `l`, the published ranking is its address projection,
and any two entries that the comparator does not strictly order — in
particular servers tied on all three keys — keep their relative order in
`l`, the map's (unspecified) enumeration order, rather than the manager's
prior ranking. -/
theorem reorderServers_spec (l : List (String × ServerStatus)) :
    List.Pairwise (fun a b => statusLess b.2 a.2 = false) (sortServers l) ∧
    (sortServers l).Perm l ∧
    reorderServers l = (sortServers l).map Prod.fst ∧
    (∀ a b : String × ServerStatus, statusLess b.2 a.2 = false →
      [a, b].Sublist l → [a, b].Sublist (sortServers l)) := by
  refine ⟨?_, List.mergeSort_perm l _, rfl, ?_⟩
  · have h := List.sorted_mergeSort serverLe_trans serverLe_total l
    exact h.imp (fun hab => by rwa [Bool.not_eq_true'] at hab)
  · intro a b hle hsub
    exact List.sublist_mergeSort serverLe_trans serverLe_total
      (by simp [List.pairwise_cons, hle]) hsub


/-- Witness for C5's amended statement: two servers tied on all keys, fed in
the enumeration order `[a-entry, b-entry]`, stay in that order in the sorted
output. -/
theorem reorderServers_spec_witness :
    [("a", statusTie "a"), ("b", statusTie "b")].Sublist
      (sortServers [("a", statusTie "a"), ("b", statusTie "b")]) :=
  (reorderServers_spec [("a", statusTie "a"), ("b", statusTie "b")]).2.2.2
    ("a", statusTie "a") ("b", statusTie "b") (by decide)
    (List.Sublist.refl _)

end Ntpsync
